import Mathlib

/-!
Verification of the `spawn-burst` cache-coordination protocol.

The program consists of a Node wrapper (`spawnBurstSync` / `spawnBurst` plus
`processResult`) that spawns a Perl script built by `buildCmdLine`
(src/src/index.ts).  The Perl script implements the protocol:

  - `readCache` parses the cache file: an empty file is the "no record"
    sentinel `("", "", 0)`; otherwise the content must match
    `^([^\n]+)\n(.*)$` (first line = writer identity, rest = payload verbatim),
    else the script dies with "invalid format".
  - A pre-lock snapshot S0 is read, the sidecar lock `<cacheFile>.lock` is
    acquired exclusively, then a post-lock snapshot S1 is read.
  - Reuse test: if S1's payload is non-empty, matches the validator,
    `cacheMaxAgeSec > 0` and `S1.age < cacheMaxAgeSec`, print the payload and
    `exit(0)` immediately.
  - Run test: if S1's payload is empty, or fails the validator, or
    `S1.writer == S0.writer`, run the command; a non-zero exit status or a
    non-matching output dies without writing; otherwise `writeCache` persists
    the new record.  Otherwise (coalescing) the freshly observed payload is
    printed without running the command.

Strings are modelled as `List Char`; the compiled validator regex is
modelled either abstractly as a `List Char → Bool` predicate or, for the
regex-semantics claims, by a small regex interpreter with the Perl `/s`
(dot-matches-newline) and `/m` (multiline anchors) modifiers made explicit.
-/

deriving instance DecidableEq for Except

namespace SpawnBurst

abbrev Str := List Char

/-- Splits the cache file content at its FIRST newline, mirroring the
destructuring regex `^([^\n]+)\n(.*)$` of `readCache` (the `(.*)` runs under
`/s`, so the payload keeps all further newlines verbatim).  Returns `none`
when the content has no newline at all; a leading newline yields an empty
first component, which `readCache` rejects below. -/
def splitWriterLine : Str → Option (Str × Str)
  | [] => none
  | c :: rest =>
    if c = '\n' then some ([], rest)
    else match splitWriterLine rest with
      | some (w, d) => some (c :: w, d)
      | none => none

/-- The failure kinds of the Perl script, one per `die` site. -/
inductive Err
  /-- `die("invalid format of $file\n")` in `readCache`. -/
  | invalidFormat
  /-- `die("flock LOCK_EX: $!\n")` when the sidecar lock cannot be taken. -/
  | lockFailed
  /-- `die("command exited with nonzero status $?\n")`. -/
  | nonzeroExit (status : Int)
  /-- `die("response is not valid: $data\n")`. -/
  | notValid (payload : Str)
deriving DecidableEq

/-- `readCache` from the Perl script.  `content` is the current file content
and `age` is the value `time() - stat($fh)->mtime` observed at this read.
An empty file is the sentinel `("", "", 0)`; otherwise the content must be a
non-empty writer line, a newline, and the payload. -/
def readCache (content : Str) (age : Int) : Except Err (Str × Str × Int) :=
  if content = [] then .ok ([], [], 0)
  else match splitWriterLine content with
    | some (w, d) => if w = [] then .error .invalidFormat else .ok (w, d, age)
    | none => .error .invalidFormat

/-- Behaviour of the spawned command `qx{$cmd}`: `status` models `$?` after
the backticks (0 exactly when the command succeeded), `stdout` the captured
output assigned to `$data`, `stderr` the text the command writes to standard
error (which passes through to the Perl process's own standard error). -/
structure CmdBehavior where
  status : Int
  stdout : Str
  stderr : Str
deriving DecidableEq

/-- Observable outcome of one run of the Perl script. -/
structure PerlResult where
  /-- whether `qx{$cmd}` ran -/
  executed : Bool := false
  /-- whether `writeCache` ran -/
  written : Bool := false
  /-- whether the early `print $data; exit(0)` reuse branch was taken -/
  earlyReuse : Bool := false
  /-- what the script printed to stdout -/
  output : Str := []
  /-- the `die` that terminated the script, if any -/
  err : Option Err := none
deriving DecidableEq

/-- The reuse test of line 144: `$data ne "" && $data =~ $validator &&
$cacheMaxAgeSec > 0 && $age < $cacheMaxAgeSec`. -/
def reuseTest (V : Str → Bool) (cacheMaxAgeSec : Int) (data : Str) (age : Int) : Bool :=
  !data.isEmpty && V data && decide (cacheMaxAgeSec > 0) && decide (age < cacheMaxAgeSec)

/-- The run test of line 151: `$data eq "" || $data !~ $validator ||
$writer eq $oldWriter`. -/
def runCondition (V : Str → Bool) (oldWriter writer data : Str) : Bool :=
  data.isEmpty || !(V data) || decide (writer = oldWriter)

/-- Lines 152-155: run the command, die on non-zero `$?`, die when the output
fails the validator, otherwise write the cache. -/
def execPhase (V : Str → Bool) (cmd : CmdBehavior) : PerlResult :=
  if cmd.status ≠ 0 then { executed := true, err := some (.nonzeroExit cmd.status) }
  else if V cmd.stdout = false then { executed := true, err := some (.notValid cmd.stdout) }
  else { executed := true, written := true, output := cmd.stdout }

/-- The part of the script after the exclusive lock was acquired:
re-read the cache (snapshot S1), then reuse / run / coalesce. -/
def afterLock (V : Str → Bool) (cacheMaxAgeSec : Int) (oldWriter : Str)
    (content1 : Str) (age1 : Int) (cmd : CmdBehavior) : PerlResult :=
  match readCache content1 age1 with
  | .error e => { err := some e }
  | .ok (writer, data, age) =>
    if reuseTest V cacheMaxAgeSec data age then
      { earlyReuse := true, output := data }
    else if runCondition V oldWriter writer data then
      execPhase V cmd
    else
      { output := data }

/-- The whole Perl script body: read the pre-lock snapshot S0 (only its
writer is kept), acquire the sidecar lock (`lockOk = false` models an OS
failure of `open`/`flock`), then proceed with the post-lock part.
`content0` / `content1` are the cache file contents observed by the two
reads, `age1` the age observed by the second read. -/
def perlScript (V : Str → Bool) (cacheMaxAgeSec : Int) (content0 : Str)
    (lockOk : Bool) (content1 : Str) (age1 : Int) (cmd : CmdBehavior) : PerlResult :=
  match readCache content0 0 with
  | .error e => { err := some e }
  | .ok (oldWriter, _, _) =>
    if lockOk then afterLock V cacheMaxAgeSec oldWriter content1 age1 cmd
    else { err := some .lockFailed }

/-! ### The cache data file and `writeCache` -/

/-- Observable state of the cache data file: its content, its permission
bits, and its modification time. -/
structure FileState where
  content : Str
  mode : Nat
  mtime : Int
deriving DecidableEq

/-- The content `writeCache` leaves in the file:
`print $fh "$$: " . scalar(localtime) . "\n$data"` after the truncate.
`writerLine` stands for the string `"$$: " . scalar(localtime)` (process id,
a colon-space, and the human-readable timestamp; it contains no newline). -/
def writeCacheContent (writerLine data : Str) : Str :=
  writerLine ++ '\n' :: data

/-- Net effect of `writeCache` on the data file: the new record replaces the
old content, the mode was forced to octal 0600 by the `chmod`, and the
truncate/write update the modification time to the current time `now`. -/
def writeCacheEffect (writerLine data : Str) (now : Int) (_st : FileState) : FileState :=
  { content := writeCacheContent writerLine data, mode := 0o600, mtime := now }

/-- The individual file operations `writeCache` is built from, in source
order (lines 180-186). -/
inductive FileOp
  /-- `open(my $fh, "+>>", $file)` -/
  | openAppend
  /-- `chmod(0600, $file)` -/
  | chmodOp (mode : Nat)
  /-- `flock($fh, LOCK_EX)` -/
  | flockExclusive
  /-- `flock($fh, LOCK_SH)` (used by `readCache`, never by `writeCache`) -/
  | flockShared
  /-- `seek($fh, 0, SEEK_SET)` -/
  | seekStart
  /-- `truncate($fh, 0)` -/
  | truncateZero
  /-- `print $fh s` -/
  | writeData (s : Str)
  /-- `close($fh)` -/
  | closeFile
deriving DecidableEq

/-- The exact operation sequence of `writeCache` (lines 180-186): open in
read-append mode, chmod 0600, take an exclusive flock ON THE DATA FILE
ITSELF, seek to the start, truncate, write the record, close. -/
def writeCacheOps (writerLine data : Str) : List FileOp :=
  [.openAppend, .chmodOp 0o600, .flockExclusive, .seekStart, .truncateZero,
   .writeData (writeCacheContent writerLine data), .closeFile]

/-- Semantics of a single file operation on the data file (`now` is the
current clock used for modification-time updates). -/
def applyFileOp (now : Int) (st : FileState) : FileOp → FileState
  | .openAppend => st
  | .chmodOp m => { st with mode := m }
  | .flockExclusive => st
  | .flockShared => st
  | .seekStart => st
  | .truncateZero => { st with content := [], mtime := now }
  | .writeData s => { st with content := st.content ++ s, mtime := now }
  | .closeFile => st

/-- Runs a sequence of file operations. -/
def applyFileOps (now : Int) (st : FileState) (ops : List FileOp) : FileState :=
  ops.foldl (applyFileOp now) st

/-! ### The Node wrapper -/

/-- `String.prototype.trim()` on the left, as used on the captured stderr. -/
def trimStart (s : Str) : Str := s.dropWhile Char.isWhitespace

/-- `String.prototype.trim()` on the right. -/
def trimEnd (s : Str) : Str := (s.reverse.dropWhile Char.isWhitespace).reverse

/-- `res.stderr.toString().trim()` from `processResult`. -/
def jsTrim (s : Str) : Str := trimEnd (trimStart s)

/-- The text of each `die` message, written to the Perl process's stderr
(`file` is the cache file path interpolated into `$file`; the OS error text
`$!` of a failed flock is abstracted away). -/
def Err.dieMessage (file : Str) : Err → Str
  | .invalidFormat => ("invalid format of ").data ++ file ++ ['\n']
  | .lockFailed => ("flock LOCK_EX: os error").data ++ ['\n']
  | .nonzeroExit st => ("command exited with nonzero status ").data ++ (toString st).data ++ ['\n']
  | .notValid d => ("response is not valid: ").data ++ d ++ ['\n']

/-- `processResult` from src/src/index.ts (lines 74-84): a non-zero child
status throws `"<func>() failed with status <status>: "` followed by the
trimmed stderr, or the placeholder `"<empty stderr>"` when the trimmed
stderr is empty; a zero status returns the raw stdout. -/
def processResult (func : Str) (status : Int) (stdout stderr : Str) : Except Str Str :=
  if status ≠ 0 then
    .error (func ++ ("() failed with status ").data ++ (toString status).data ++ (": ").data ++
      (if jsTrim stderr = [] then ("<empty stderr>").data else jsTrim stderr))
  else .ok stdout

/-- `Except.isOk` as a plain boolean. -/
def exceptIsOk {ε α : Type} : Except ε α → Bool
  | .ok _ => true
  | .error _ => false

/-- Observable outcome of one whole invocation (`spawnBurstSync` /
`spawnBurst`): the thrown-or-returned result, whether the command was
executed, whether the cache was written, and the final data-file state. -/
structure Invocation where
  result : Except Str Str
  executed : Bool
  written : Bool
  finalState : FileState

/-- One whole invocation: runs the Perl script against the data file state
`st` (whose content is the post-lock snapshot S1; `content0` is the content
seen by the pre-lock snapshot S0), then feeds the child process's exit
status, stdout and stderr through `processResult`.  A `die` makes Perl exit
with status 255; the command's stderr passes through to the child's stderr
and the die message is appended to it.  The file is mutated exactly when
`writeCache` ran. -/
def runInvocation (func : Str) (V : Str → Bool) (cacheMaxAgeSec : Int)
    (st : FileState) (content0 : Str) (lockOk : Bool) (age1 : Int)
    (writerLine : Str) (now : Int) (cacheFile : Str) (cmd : CmdBehavior) : Invocation :=
  let r := perlScript V cacheMaxAgeSec content0 lockOk st.content age1 cmd
  let perlStatus : Int := match r.err with | none => 0 | some _ => 255
  let perlStderr : Str := (if r.executed then cmd.stderr else []) ++
    (match r.err with | some e => e.dieMessage cacheFile | none => [])
  { result := processResult func perlStatus r.output perlStderr
    executed := r.executed
    written := r.written
    finalState := if r.written then writeCacheEffect writerLine cmd.stdout now st else st }

/-! ### The validator regex

Line 128 compiles the validator once: `$validator = qr/$validator/s` — the
`/s` ("single line") modifier only, which makes `.` also match a newline;
the `/m` (multiline) modifier, which would make `^`/`$` also match at inner
line boundaries, is NOT set.  Matching via `=~` is an unanchored search.
The interpreter below makes both modifiers explicit so the two behaviours
can be compared. -/

/-- Core regex syntax: literal character, the `.` wildcard, the `^` and `$`
anchors, concatenation, alternation and Kleene star. -/
inductive Rx
  | lit (c : Char)
  | anyChar
  | startOfText
  | endOfText
  | seq (r1 r2 : Rx)
  | alt (r1 r2 : Rx)
  | star (r : Rx)
deriving DecidableEq

/-- The Perl regex modifiers relevant here. -/
structure RxFlags where
  /-- `/s`: the `.` wildcard also matches a newline -/
  dotAll : Bool
  /-- `/m`: `^` and `$` also match right after / right before an inner newline -/
  multiline : Bool
deriving DecidableEq

/-- Whether `^` matches at position `i` of `text`. -/
def atStart (fl : RxFlags) (text : Str) (i : Nat) : Bool :=
  (i == 0) || (fl.multiline && decide (0 < i) && (text[i - 1]? == some '\n'))

/-- Whether `$` matches at position `i` of `text`.  Without `/m`, Perl's `$`
matches at the very end of the text or just before a final newline. -/
def atEnd (fl : RxFlags) (text : Str) (i : Nat) : Bool :=
  (i == text.length) || ((i + 1 == text.length) && (text[i]? == some '\n'))
    || (fl.multiline && (text[i]? == some '\n'))

/-- Saturates a step function from a set of positions: used to interpret the
Kleene star (positions only range over `0..text.length`, so
`text.length + 1` rounds of expansion reach a fixpoint). -/
def starReach (step : Nat → List Nat) : Nat → List Nat → List Nat
  | 0, ps => ps
  | fuel + 1, ps =>
    let more := ((ps.map step).flatten).filter (fun j => !ps.contains j)
    if more.isEmpty then ps else starReach step fuel (ps ++ more)

/-- All positions at which a match of `r` can end, when matching starts at
position `i` of `text`. -/
def rxNext (fl : RxFlags) (text : Str) : Rx → Nat → List Nat
  | .lit c, i =>
    match text[i]? with
    | some d => if d == c then [i + 1] else []
    | none => []
  | .anyChar, i =>
    match text[i]? with
    | some d => if fl.dotAll || d != '\n' then [i + 1] else []
    | none => []
  | .startOfText, i => if atStart fl text i then [i] else []
  | .endOfText, i => if atEnd fl text i then [i] else []
  | .seq r1 r2, i => ((rxNext fl text r1 i).map (rxNext fl text r2)).flatten
  | .alt r1 r2, i => rxNext fl text r1 i ++ rxNext fl text r2 i
  | .star r, i => starReach (rxNext fl text r) (text.length + 1) [i]

/-- Unanchored search, the semantics of `text =~ regex`: the pattern matches
somewhere when a match can start at some position of the text. -/
def rxFound (fl : RxFlags) (r : Rx) (text : Str) : Bool :=
  (List.range (text.length + 1)).any (fun i => !(rxNext fl text r i).isEmpty)

/-- The modifier set the code actually uses: `qr/$validator/s`. -/
def perlMatchFlags : RxFlags := { dotAll := true, multiline := false }

/-- The validator as compiled by line 128 and used at every match site. -/
def perlValidator (r : Rx) (data : Str) : Bool := rxFound perlMatchFlags r data

/-- Modelled from the spec: the acceptance relation as the claim words it —
"pattern found anywhere in the text, with multiline matching and with the
wildcard matching newline characters" — i.e. with BOTH the
dot-matches-newline and the multiline-anchor behaviours enabled.  Used only
to compare the claimed semantics against `perlValidator`. -/
def claimedValidator (r : Rx) (data : Str) : Bool :=
  rxFound { dotAll := true, multiline := true } r data

/-! ### A burst of coalesced invocations

The sidecar lock serialises the critical sections of concurrent callers.  A
burst of `n` callers against a slow command is modelled as: every caller
reads its pre-lock snapshot S0 from the initial file content (they all
arrive before the first execution finishes), then the callers pass through
the critical section one after another, each seeing the file state left by
its predecessors. -/

/-- Runs callers `i, i+1, ...` (`n` of them) through the critical section in
order.  `content0` is the shared pre-lock snapshot; `wl k`, `ages k` and
`now k` are caller `k`'s fresh writer line, observed record age and write
clock.  Returns every caller's `PerlResult` and the final file state. -/
def runBurstAux (V : Str → Bool) (cacheMaxAgeSec : Int) (content0 : Str)
    (wl : Nat → Str) (ages : Nat → Int) (now : Nat → Int) (cmd : CmdBehavior) :
    Nat → Nat → FileState → List PerlResult × FileState
  | 0, _, st => ([], st)
  | n + 1, i, st =>
    let r := perlScript V cacheMaxAgeSec content0 true st.content (ages i) cmd
    let st' := if r.written then writeCacheEffect (wl i) cmd.stdout (now i) st else st
    let rest := runBurstAux V cacheMaxAgeSec content0 wl ages now cmd n (i + 1) st'
    (r :: rest.1, rest.2)

/-- A burst of `n` concurrent callers over initial file state `st`: all
pre-lock snapshots see `st.content`. -/
def runBurst (V : Str → Bool) (cacheMaxAgeSec : Int) (wl : Nat → Str)
    (ages : Nat → Int) (now : Nat → Int) (cmd : CmdBehavior) (n : Nat)
    (st : FileState) : List PerlResult × FileState :=
  runBurstAux V cacheMaxAgeSec st.content wl ages now cmd n 0 st

example : readCache [] 0 = .ok ([], [], 0) := by decide

example : readCache ['w', '\n', 'x', '\n', 'y'] 3 = .ok (['w'], ['x', '\n', 'y'], 3) := by
  decide

example : readCache ['a', 'b'] 3 = .error .invalidFormat := by decide

example : readCache ['\n', 'b'] 3 = .error .invalidFormat := by decide

example :
    perlScript (fun d => !d.isEmpty) 0 [] true [] 0 { status := 0, stdout := ['o'], stderr := [] } =
      { executed := true, written := true, output := ['o'] } := by decide

example :
    exceptIsOk (runInvocation ['f'] (fun d => !d.isEmpty) 0 ⟨['a', 'b'], 384, 5⟩ ['a', 'b']
      true 0 ['w'] 9 ['c'] ⟨0, ['o'], []⟩).result = false := by decide

example :
    (runInvocation ['f'] (fun d => !d.isEmpty) 0 ⟨[], 384, 5⟩ [] true 0 ['w'] 9 ['c']
      ⟨0, ['o'], []⟩).result = .ok ['o'] := by decide

/-! ### Helper lemmas -/

theorem reuseTest_eq_true_iff (V : Str → Bool) (m : Int) (d : Str) (a : Int) :
    reuseTest V m d a = true ↔ (d ≠ [] ∧ V d = true ∧ 0 < m ∧ a < m) := by
  simp [reuseTest, and_assoc]

theorem reuseTest_zero (V : Str → Bool) (d : Str) (a : Int) :
    reuseTest V 0 d a = false := by
  simp [reuseTest]

theorem reuseTest_nil (V : Str → Bool) (m : Int) (a : Int) :
    reuseTest V m [] a = false := by
  simp [reuseTest]

theorem runCondition_eq_false_iff (V : Str → Bool) (ow w d : Str) :
    runCondition V ow w d = false ↔ (d ≠ [] ∧ V d = true ∧ w ≠ ow) := by
  simp [runCondition, and_assoc]

theorem runCondition_self (V : Str → Bool) (w d : Str) :
    runCondition V w w d = true := by
  simp [runCondition]

theorem runCondition_nil (V : Str → Bool) (ow w : Str) :
    runCondition V ow w [] = true := by
  simp [runCondition]

theorem splitWriterLine_append (w d : Str) (hw : '\n' ∉ w) :
    splitWriterLine (w ++ '\n' :: d) = some (w, d) := by
  induction w with
  | nil => simp [splitWriterLine]
  | cons c cs ih =>
    have hc : c ≠ '\n' := fun h => hw (h ▸ List.mem_cons_self c cs)
    have hcs : '\n' ∉ cs := fun h => hw (List.mem_cons_of_mem c h)
    simp [splitWriterLine, hc, ih hcs]

theorem splitWriterLine_eq_none (c : Str) (hn : '\n' ∉ c) :
    splitWriterLine c = none := by
  induction c with
  | nil => simp [splitWriterLine]
  | cons x xs ih =>
    have hx : x ≠ '\n' := fun h => hn (h ▸ List.mem_cons_self x xs)
    have hxs : '\n' ∉ xs := fun h => hn (List.mem_cons_of_mem x h)
    simp [splitWriterLine, hx, ih hxs]

/-- Reading back a record just written by `writeCache`. -/
theorem readCache_writeCacheContent (w d : Str) (a : Int) (hw : w ≠ []) (hn : '\n' ∉ w) :
    readCache (writeCacheContent w d) a = .ok (w, d, a) := by
  have hne : writeCacheContent w d ≠ [] := by
    cases w with
    | nil => exact absurd rfl hw
    | cons c cs => simp [writeCacheContent]
  simp [readCache, hne, writeCacheContent, splitWriterLine_append w d hn, hw]

/-- A non-empty cache file without any newline fails to parse. -/
theorem readCache_invalid (c : Str) (a : Int) (hne : c ≠ []) (hn : '\n' ∉ c) :
    readCache c a = .error .invalidFormat := by
  simp [readCache, hne, splitWriterLine_eq_none c hn]

/-- The writer and payload returned by `readCache` do not depend on the
observed age. -/
theorem readCache_age (c : Str) (a b : Int) (w d : Str) (x : Int)
    (h : readCache c a = .ok (w, d, x)) :
    ∃ y, readCache c b = .ok (w, d, y) := by
  by_cases hc : c = []
  · refine ⟨0, ?_⟩
    rw [hc] at h ⊢
    simp only [readCache, if_pos rfl] at h ⊢
    injection h with h2
    injection h2 with hw h3
    injection h3 with hd hx
    simp [← hw, ← hd]
  · cases hs : splitWriterLine c with
    | none =>
      simp only [readCache, if_neg hc, hs] at h
      exact absurd h (by simp)
    | some p =>
      obtain ⟨w', d'⟩ := p
      by_cases hw' : w' = []
      · simp only [readCache, if_neg hc, hs, hw', if_pos rfl] at h
        rw [if_pos trivial] at h
        exact absurd h (by simp)
      · refine ⟨b, ?_⟩
        simp only [readCache, if_neg hc, hs, if_neg hw'] at h ⊢
        injection h with h2
        injection h2 with hw h3
        injection h3 with hd hx
        rw [← hw, ← hd]

/-- Once both snapshots read successfully and the lock was acquired, the
script reduces to the reuse / run / coalesce decision. -/
theorem perlScript_steps (V : Str → Bool) (m : Int) (content0 content1 : Str) (age1 : Int)
    (cmd : CmdBehavior) (ow d0 : Str) (a0 : Int) (w1 d1 : Str) (a1 : Int)
    (h0 : readCache content0 0 = .ok (ow, d0, a0))
    (h1 : readCache content1 age1 = .ok (w1, d1, a1)) :
    perlScript V m content0 true content1 age1 cmd =
      (if reuseTest V m d1 a1 then { earlyReuse := true, output := d1 }
       else if runCondition V ow w1 d1 then execPhase V cmd
       else { output := d1 }) := by
  simp only [perlScript, h0, afterLock, h1, if_true]

/-- Every branch of the script is either the execution phase or a branch
that neither executes nor writes. -/
theorem perlScript_cases (V : Str → Bool) (m : Int) (c0 : Str) (lk : Bool) (c1 : Str)
    (a1 : Int) (cmd : CmdBehavior) :
    perlScript V m c0 lk c1 a1 cmd = execPhase V cmd ∨
    ((perlScript V m c0 lk c1 a1 cmd).written = false ∧
     (perlScript V m c0 lk c1 a1 cmd).executed = false) := by
  unfold perlScript afterLock
  split
  · right; simp
  · split
    · split
      · right; simp
      · split
        · right; simp
        · split
          · left; rfl
          · right; simp
    · right; simp

theorem execPhase_written (V : Str → Bool) (cmd : CmdBehavior) :
    (execPhase V cmd).written = true →
    (execPhase V cmd).err = none ∧ cmd.status = 0 ∧ V cmd.stdout = true := by
  unfold execPhase
  split
  · simp
  · split <;> simp_all

/-- A write only happens on the fully successful path. -/
theorem perlScript_written (V : Str → Bool) (m : Int) (c0 : Str) (lk : Bool) (c1 : Str)
    (a1 : Int) (cmd : CmdBehavior) :
    (perlScript V m c0 lk c1 a1 cmd).written = true →
    (perlScript V m c0 lk c1 a1 cmd).err = none := by
  intro hw
  rcases perlScript_cases V m c0 lk c1 a1 cmd with h | h
  · rw [h] at hw ⊢
    exact (execPhase_written V cmd hw).1
  · rw [h.1] at hw
    exact absurd hw (by simp)

/-- The invocation returns normally exactly when the Perl script did not
die. -/
theorem runInvocation_ok_iff (func : Str) (V : Str → Bool) (m : Int) (st : FileState)
    (c0 : Str) (lk : Bool) (a1 : Int) (wl : Str) (now : Int) (cf : Str)
    (cmd : CmdBehavior) :
    exceptIsOk (runInvocation func V m st c0 lk a1 wl now cf cmd).result =
      ((perlScript V m c0 lk st.content a1 cmd).err == none) := by
  unfold runInvocation processResult
  cases h : (perlScript V m c0 lk st.content a1 cmd).err <;> simp [h, exceptIsOk]

/-! ### Substring containment and trimming lemmas -/

/-- `segAt needle hay`: `needle` occurs at the very start of `hay`. -/
def segAt : Str → Str → Bool
  | [], _ => true
  | _ :: _, [] => false
  | a :: as, b :: bs => a == b && segAt as bs

/-- `containsSeg needle hay`: `needle` occurs somewhere inside `hay`. -/
def containsSeg (needle : Str) : Str → Bool
  | [] => segAt needle []
  | c :: rest => segAt needle (c :: rest) || containsSeg needle rest

theorem segAt_append_self (n t : Str) : segAt n (n ++ t) = true := by
  induction n with
  | nil => rfl
  | cons c cs ih => simp [segAt, ih]

theorem containsSeg_of_segAt (n h : Str) (hs : segAt n h = true) :
    containsSeg n h = true := by
  cases h with
  | nil => simpa [containsSeg] using hs
  | cons c rest => simp [containsSeg, hs]

theorem containsSeg_append_mid (a n b : Str) : containsSeg n (a ++ (n ++ b)) = true := by
  induction a with
  | nil => exact containsSeg_of_segAt n (n ++ b) (segAt_append_self n b)
  | cons c cs ih => simp [containsSeg, ih]

theorem dropWhile_append_fix {α : Type} (p : α → Bool) (a b : List α)
    (hb : b.dropWhile p = b) : (a ++ b).dropWhile p = a.dropWhile p ++ b := by
  rw [List.dropWhile_append]
  split
  · rename_i h
    rw [List.isEmpty_iff] at h
    rw [h, hb, List.nil_append]
  · rfl

theorem dropWhile_cons_fix {α : Type} (p : α → Bool) (x : α) (xs : List α)
    (hx : p x = false) : (x :: xs).dropWhile p = x :: xs := by
  rw [List.dropWhile_cons_of_neg (by simp [hx])]

/-- Trimming a string of the shape `A ++ c ++ w` where `c` begins and ends
with a non-whitespace character keeps `left-trimmed A` followed by `c`
intact at the front. -/
theorem jsTrim_embed (A c w : Str) (x y : Char) (xs ys : Str)
    (hc : c = x :: xs) (hx : x.isWhitespace = false)
    (hcr : c.reverse = y :: ys) (hy : y.isWhitespace = false) :
    ∃ t, jsTrim (A ++ c ++ w) = trimStart A ++ c ++ t := by
  have hcw : (c ++ w).dropWhile Char.isWhitespace = c ++ w := by
    rw [hc, List.cons_append]
    exact dropWhile_cons_fix _ x (xs ++ w) hx
  have h1 : trimStart (A ++ c ++ w) = trimStart A ++ c ++ w := by
    unfold trimStart
    rw [List.append_assoc, dropWhile_append_fix _ A (c ++ w) hcw, ← List.append_assoc]
  unfold jsTrim
  rw [h1]
  unfold trimEnd
  refine ⟨(w.reverse.dropWhile Char.isWhitespace).reverse, ?_⟩
  have hfix : (c.reverse ++ (trimStart A).reverse).dropWhile Char.isWhitespace
      = c.reverse ++ (trimStart A).reverse := by
    rw [hcr, List.cons_append]
    exact dropWhile_cons_fix _ y (ys ++ (trimStart A).reverse) hy
  rw [List.reverse_append, List.reverse_append,
    dropWhile_append_fix _ w.reverse (c.reverse ++ (trimStart A).reverse) hfix,
    List.reverse_append, List.reverse_append, List.reverse_reverse, List.reverse_reverse,
    List.append_assoc]

theorem execPhase_executed (V : Str → Bool) (cmd : CmdBehavior) :
    (execPhase V cmd).executed = true := by
  unfold execPhase
  split
  · rfl
  · split <;> rfl

theorem execPhase_earlyReuse (V : Str → Bool) (cmd : CmdBehavior) :
    (execPhase V cmd).earlyReuse = false := by
  unfold execPhase
  split
  · rfl
  · split <;> rfl

/-! ### The claims -/

/-- C1: when the post-lock snapshot S1 has a non-empty payload that matches
the validator but the reuse test fails (in particular whenever
`cacheMaxAgeSec = 0`, which falsifies the reuse test's age gate), the
command is executed if and only if S1's writer equals the pre-lock snapshot
S0's writer; when the writers differ, the invocation skips execution and
returns S1's payload unchanged with no write and no error — the coalescing
path. -/
theorem C1_coalescing (V : Str → Bool) (m : Int) (content0 content1 : Str)
    (age1 : Int) (cmd : CmdBehavior) (ow d0 : Str) (a0 : Int) (w1 d1 : Str) (a1 : Int)
    (h0 : readCache content0 0 = .ok (ow, d0, a0))
    (h1 : readCache content1 age1 = .ok (w1, d1, a1))
    (hne : d1 ≠ []) (hv : V d1 = true)
    (hreuse : reuseTest V m d1 a1 = false) :
    ((perlScript V m content0 true content1 age1 cmd).executed = true ↔ w1 = ow) ∧
    (w1 ≠ ow → perlScript V m content0 true content1 age1 cmd = { output := d1 }) := by
  rw [perlScript_steps V m content0 content1 age1 cmd ow d0 a0 w1 d1 a1 h0 h1]
  by_cases hw : w1 = ow
  · simp [hreuse, hw, runCondition_self, execPhase_executed]
  · have hrc : runCondition V ow w1 d1 = false :=
      (runCondition_eq_false_iff V ow w1 d1).mpr ⟨hne, hv, hw⟩
    simp [hreuse, hrc, hw]

/-- C2: the post-lock snapshot's payload is returned through the immediate
reuse branch (`print $data; exit(0)`, with no command execution and no
cache write) exactly when that payload is non-empty, matches the validator,
`cacheMaxAgeSec > 0`, and the record's age is strictly below
`cacheMaxAgeSec`. -/
theorem C2_reuse (V : Str → Bool) (m : Int) (content0 content1 : Str)
    (age1 : Int) (cmd : CmdBehavior) (ow d0 : Str) (a0 : Int) (w1 d1 : Str) (a1 : Int)
    (h0 : readCache content0 0 = .ok (ow, d0, a0))
    (h1 : readCache content1 age1 = .ok (w1, d1, a1)) :
    ((perlScript V m content0 true content1 age1 cmd).earlyReuse = true ↔
      (d1 ≠ [] ∧ V d1 = true ∧ 0 < m ∧ a1 < m)) ∧
    ((perlScript V m content0 true content1 age1 cmd).earlyReuse = true →
      perlScript V m content0 true content1 age1 cmd =
        { earlyReuse := true, output := d1 }) := by
  rw [perlScript_steps V m content0 content1 age1 cmd ow d0 a0 w1 d1 a1 h0 h1]
  by_cases hr : reuseTest V m d1 a1 = true
  · have hconds := (reuseTest_eq_true_iff V m d1 a1).mp hr
    simp [hr, hconds]
  · have hfalse : reuseTest V m d1 a1 = false := by
      simpa using hr
    have hnc : ¬(d1 ≠ [] ∧ V d1 = true ∧ 0 < m ∧ a1 < m) :=
      fun hc => hr ((reuseTest_eq_true_iff V m d1 a1).mpr hc)
    have hite : (if runCondition V ow w1 d1 then execPhase V cmd
        else ({ output := d1 } : PerlResult)).earlyReuse = false := by
      split
      · exact execPhase_earlyReuse V cmd
      · rfl
    simp [hfalse, hite, hnc]

/-- Witness for C1: S0 was written by "a", S1 by "b" with valid non-empty
payload "Y", `cacheMaxAgeSec = 0` — the caller coalesces. -/
theorem C1_coalescing_witness :
    ((perlScript (fun d => !d.isEmpty) 0 ['a', '\n', 'X'] true ['b', '\n', 'Y'] 0
        ⟨0, ['Z'], []⟩).executed = true ↔ ['b'] = ['a']) ∧
    (['b'] ≠ ['a'] →
      perlScript (fun d => !d.isEmpty) 0 ['a', '\n', 'X'] true ['b', '\n', 'Y'] 0
        ⟨0, ['Z'], []⟩ = { output := ['Y'] }) :=
  C1_coalescing (fun d => !d.isEmpty) 0 ['a', '\n', 'X'] ['b', '\n', 'Y'] 0 ⟨0, ['Z'], []⟩
    ['a'] ['X'] 0 ['b'] ['Y'] 0 (by decide) (by decide) (by decide) (by decide) (by decide)

/-- Witness for C2: a fresh valid record of age 1 with `cacheMaxAgeSec = 5`
is reused immediately. -/
theorem C2_reuse_witness :
    ((perlScript (fun d => !d.isEmpty) 5 [] true ['w', '\n', 'o', 'k'] 1
        ⟨0, ['Z'], []⟩).earlyReuse = true ↔
      (['o', 'k'] ≠ [] ∧ (fun d : Str => !d.isEmpty) ['o', 'k'] = true ∧
        (0 : Int) < 5 ∧ (1 : Int) < 5)) ∧
    ((perlScript (fun d => !d.isEmpty) 5 [] true ['w', '\n', 'o', 'k'] 1
        ⟨0, ['Z'], []⟩).earlyReuse = true →
      perlScript (fun d => !d.isEmpty) 5 [] true ['w', '\n', 'o', 'k'] 1 ⟨0, ['Z'], []⟩ =
        { earlyReuse := true, output := ['o', 'k'] }) :=
  C2_reuse (fun d => !d.isEmpty) 5 [] ['w', '\n', 'o', 'k'] 1 ⟨0, ['Z'], []⟩
    [] [] 0 ['w'] ['o', 'k'] 1 (by decide) (by decide)

/-- C3 counterexample: with a validator that the empty string satisfies
(e.g. the pattern `.*`, modelled by the always-true matcher), a successful
command with empty stdout is ACCEPTED AND CACHED — the invocation neither
aborts with a validation failure nor skips the write, refuting "an empty
payload never satisfies any validator". -/
theorem C3_counterexample :
    perlScript (fun _ => true) 0 [] true [] 0 ⟨0, [], []⟩ =
      { executed := true, written := true, output := [] } := by decide

/-- C3 (amended): a successful command with empty stdout aborts with a
validation failure and no cache write exactly when the empty payload fails
the supplied validator (as with the pattern `.+`); a validator matching the
empty string instead accepts and caches the empty output.  At the
cache-reuse decision sites the empty payload IS unconditionally treated as
unusable: the reuse test rejects it and the run test forces execution. -/
theorem C3_empty_output (V : Str → Bool) (m : Int) (content0 content1 : Str)
    (age1 : Int) (cmd : CmdBehavior) (ow d0 : Str) (a0 : Int) (w1 d1 : Str) (a1 : Int)
    (h0 : readCache content0 0 = .ok (ow, d0, a0))
    (h1 : readCache content1 age1 = .ok (w1, d1, a1))
    (hreuse : reuseTest V m d1 a1 = false)
    (hrun : runCondition V ow w1 d1 = true)
    (hst : cmd.status = 0) (hout : cmd.stdout = [])
    (hV : V [] = false) :
    perlScript V m content0 true content1 age1 cmd =
      { executed := true, err := some (.notValid []) } ∧
    (∀ (W : Str → Bool) (mm aa : Int), reuseTest W mm [] aa = false) ∧
    (∀ (W : Str → Bool) (o w : Str), runCondition W o w [] = true) := by
  refine ⟨?_, fun W mm aa => reuseTest_nil W mm aa, fun W o w => runCondition_nil W o w⟩
  rw [perlScript_steps V m content0 content1 age1 cmd ow d0 a0 w1 d1 a1 h0 h1]
  simp only [hreuse, hrun, Bool.false_eq_true, if_false, if_true]
  simp [execPhase, hst, hout, hV]

/-- Witness for C3 (amended): validator `.+` (rejects the empty string),
empty cache, successful command with empty stdout. -/
theorem C3_empty_output_witness :
    perlScript (fun d => !d.isEmpty) 0 [] true [] 0 ⟨0, [], []⟩ =
      { executed := true, err := some (.notValid []) } ∧
    (∀ (W : Str → Bool) (mm aa : Int), reuseTest W mm [] aa = false) ∧
    (∀ (W : Str → Bool) (o w : Str), runCondition W o w [] = true) :=
  C3_empty_output (fun d => !d.isEmpty) 0 [] [] 0 ⟨0, [], []⟩ [] [] 0 [] [] 0
    (by decide) (by decide) (by decide) (by decide) (by decide) (by decide) (by decide)

/-- C4 counterexample: `writeCache` DOES lock — its operation sequence
contains an exclusive `flock` of the data file itself (line 182),
refuting "performs no locking of its own". -/
theorem C4_counterexample :
    FileOp.flockExclusive ∈ writeCacheOps ['w'] ['d'] := by decide

/-- C4 (amended): `writeCache` opens the data file in read-append mode,
forces its permissions to octal 0600, acquires an exclusive flock on the
data file itself, seeks to the start, truncates, writes the writer line
followed by the payload, and closes; running that operation sequence over
any file state produces exactly the `writeCacheEffect` the protocol
ascribes to a write.  (Exclusivity across whole invocations still rests on
the caller-held sidecar lock; the data-file flock additionally serialises
`writeCache` against concurrent `readCache` shared locks.) -/
theorem C4_write_ops (w d : Str) (now : Int) (st : FileState) :
    FileOp.flockExclusive ∈ writeCacheOps w d ∧
    applyFileOps now st (writeCacheOps w d) =
      { content := writeCacheContent w d, mode := 0o600, mtime := now } ∧
    applyFileOps now st (writeCacheOps w d) = writeCacheEffect w d now st := by
  refine ⟨by simp [writeCacheOps], ?_, ?_⟩ <;>
    simp [applyFileOps, writeCacheOps, applyFileOp, writeCacheEffect]

theorem exists_error_of_isOk_false {ε α : Type} (e : Except ε α)
    (h : exceptIsOk e = false) : ∃ msg, e = .error msg := by
  cases e with
  | error msg => exact ⟨msg, rfl⟩
  | ok v => simp [exceptIsOk] at h

/-- C6: a failed invocation — lock acquisition failure, cache read failure,
non-zero command exit, or validation failure — never mutates the data
file: the final file state (content, permission bits, and modification
time) is identical to the initial one, because the write step is reached
only on the fully successful path. -/
theorem C6_no_mutation_on_failure (func : Str) (V : Str → Bool) (m : Int)
    (st : FileState) (c0 : Str) (lk : Bool) (a1 : Int) (wl : Str) (now : Int)
    (cf : Str) (cmd : CmdBehavior)
    (hfail : exceptIsOk (runInvocation func V m st c0 lk a1 wl now cf cmd).result = false) :
    (runInvocation func V m st c0 lk a1 wl now cf cmd).finalState = st ∧
    (runInvocation func V m st c0 lk a1 wl now cf cmd).written = false := by
  have hok := runInvocation_ok_iff func V m st c0 lk a1 wl now cf cmd
  rw [hfail] at hok
  have herr : (perlScript V m c0 lk st.content a1 cmd).err ≠ none := by
    intro h
    rw [h] at hok
    simp at hok
  have hw : (perlScript V m c0 lk st.content a1 cmd).written = false := by
    by_contra hcon
    exact herr (perlScript_written V m c0 lk st.content a1 cmd (by simpa using hcon))
  constructor <;> simp [runInvocation, hw]

/-- Witness for C6: a malformed (newline-free, non-empty) cache file makes
the invocation fail and leaves the file untouched. -/
theorem C6_no_mutation_on_failure_witness :
    (runInvocation ['f'] (fun d => !d.isEmpty) 0 ⟨['a', 'b'], 384, 5⟩ ['a', 'b']
      true 0 ['w'] 9 ['c'] ⟨0, ['o'], []⟩).finalState = ⟨['a', 'b'], 384, 5⟩ ∧
    (runInvocation ['f'] (fun d => !d.isEmpty) 0 ⟨['a', 'b'], 384, 5⟩ ['a', 'b']
      true 0 ['w'] 9 ['c'] ⟨0, ['o'], []⟩).written = false :=
  C6_no_mutation_on_failure ['f'] (fun d => !d.isEmpty) 0 ⟨['a', 'b'], 384, 5⟩ ['a', 'b']
    true 0 ['w'] 9 ['c'] ⟨0, ['o'], []⟩ (by decide)

/-- C8: after every invocation that wrote the cache, the data file's
permission bits are exactly octal 0600 — owner read/write only; the group
and other permission octets (`mode % 64`) are zero.  The write is the only
operation of the protocol that mutates the file, so this is an invariant
of every mutation. -/
theorem C8_mode_after_write (func : Str) (V : Str → Bool) (m : Int)
    (st : FileState) (c0 : Str) (lk : Bool) (a1 : Int) (wl : Str) (now : Int)
    (cf : Str) (cmd : CmdBehavior)
    (hw : (runInvocation func V m st c0 lk a1 wl now cf cmd).written = true) :
    (runInvocation func V m st c0 lk a1 wl now cf cmd).finalState.mode = 0o600 ∧
    (runInvocation func V m st c0 lk a1 wl now cf cmd).finalState.mode % 64 = 0 := by
  have hw' : (perlScript V m c0 lk st.content a1 cmd).written = true := by
    simpa [runInvocation] using hw
  constructor <;> simp [runInvocation, hw', writeCacheEffect]

/-- Witness for C8: a successful run over an empty cache writes and leaves
mode 0600. -/
theorem C8_mode_after_write_witness :
    (runInvocation ['f'] (fun d => !d.isEmpty) 0 ⟨[], 384, 5⟩ [] true 0 ['w'] 9 ['c']
      ⟨0, ['o'], []⟩).finalState.mode = 0o600 ∧
    (runInvocation ['f'] (fun d => !d.isEmpty) 0 ⟨[], 384, 5⟩ [] true 0 ['w'] 9 ['c']
      ⟨0, ['o'], []⟩).finalState.mode % 64 = 0 :=
  C8_mode_after_write ['f'] (fun d => !d.isEmpty) 0 ⟨[], 384, 5⟩ [] true 0 ['w'] 9 ['c']
    ⟨0, ['o'], []⟩ (by decide)

/-- C10: a non-empty cache file with no newline has no well-formed writer
line, so every invocation against it dies with the invalid-format error at
the very first (pre-lock) read — before the reuse/run decision: nothing is
executed, nothing is written, and the file state is left unchanged, so
every subsequent invocation fails identically until the file is removed or
rewritten externally.  Only the completely empty file maps to the
"no record" sentinel `("", "", 0)` that forces re-execution. -/
theorem C10_invalid_format (func : Str) (V : Str → Bool) (m : Int)
    (st : FileState) (lk : Bool) (a1 : Int) (wl : Str) (now : Int)
    (cf : Str) (cmd : CmdBehavior)
    (hne : st.content ≠ []) (hnl : '\n' ∉ st.content) :
    perlScript V m st.content lk st.content a1 cmd = { err := some .invalidFormat } ∧
    (∃ msg, (runInvocation func V m st st.content lk a1 wl now cf cmd).result =
      .error msg) ∧
    (runInvocation func V m st st.content lk a1 wl now cf cmd).executed = false ∧
    (runInvocation func V m st st.content lk a1 wl now cf cmd).written = false ∧
    (runInvocation func V m st st.content lk a1 wl now cf cmd).finalState = st ∧
    (∀ a : Int, readCache [] a = .ok ([], [], 0)) := by
  have hrc := readCache_invalid st.content 0 hne hnl
  have hps : perlScript V m st.content lk st.content a1 cmd =
      { err := some .invalidFormat } := by
    unfold perlScript
    rw [hrc]
  have hisok : exceptIsOk (runInvocation func V m st st.content lk a1 wl now cf cmd).result
      = false := by
    rw [runInvocation_ok_iff, hps]
    rfl
  refine ⟨hps, exists_error_of_isOk_false _ hisok, ?_, ?_, ?_, fun a => by simp [readCache]⟩ <;>
    simp [runInvocation, hps]

/-- Witness for C10 at the concrete malformed file content "abc". -/
theorem C10_invalid_format_witness :
    perlScript (fun d => !d.isEmpty) 0 ['a', 'b', 'c'] true ['a', 'b', 'c'] 0
      ⟨0, ['o'], []⟩ = { err := some .invalidFormat } ∧
    (∃ msg, (runInvocation ['f'] (fun d => !d.isEmpty) 0 ⟨['a', 'b', 'c'], 384, 3⟩
      ['a', 'b', 'c'] true 0 ['w'] 9 ['c'] ⟨0, ['o'], []⟩).result = .error msg) ∧
    (runInvocation ['f'] (fun d => !d.isEmpty) 0 ⟨['a', 'b', 'c'], 384, 3⟩
      ['a', 'b', 'c'] true 0 ['w'] 9 ['c'] ⟨0, ['o'], []⟩).executed = false ∧
    (runInvocation ['f'] (fun d => !d.isEmpty) 0 ⟨['a', 'b', 'c'], 384, 3⟩
      ['a', 'b', 'c'] true 0 ['w'] 9 ['c'] ⟨0, ['o'], []⟩).written = false ∧
    (runInvocation ['f'] (fun d => !d.isEmpty) 0 ⟨['a', 'b', 'c'], 384, 3⟩
      ['a', 'b', 'c'] true 0 ['w'] 9 ['c'] ⟨0, ['o'], []⟩).finalState =
        ⟨['a', 'b', 'c'], 384, 3⟩ ∧
    (∀ a : Int, readCache [] a = .ok ([], [], 0)) :=
  C10_invalid_format ['f'] (fun d => !d.isEmpty) 0 ⟨['a', 'b', 'c'], 384, 3⟩
    true 0 ['w'] 9 ['c'] ⟨0, ['o'], []⟩ (by decide) (by decide)

/-- Trimming the combined stderr `cmd stderr ++ die text` keeps the
left-trimmed command stderr followed by the die text's head intact. -/
theorem jsTrim_embed_die (A w : Str) :
    ∃ t, jsTrim (A ++ ("command exited with nonzero status").data ++ w) =
      trimStart A ++ ("command exited with nonzero status").data ++ t :=
  jsTrim_embed A (("command exited with nonzero status").data) w 'c' 's'
    (("ommand exited with nonzero status").data)
    ((("command exited with nonzero statu").data).reverse)
    (by decide) (by decide) (by decide) (by decide)

/-- C7: when the run branch is taken and the command exits with a non-zero
status, the invocation fails with an execution error and performs no cache
write: the thrown message contains the captured stderr text (left-trimmed,
as the Node `trim()` strips the edges of the combined child stderr) and
the die text "command exited with nonzero status", and the data file is
unchanged.  On this path the child's stderr can never be empty — the die
text is always appended — so the placeholder branch cannot arise there;
the last conjunct shows `processResult` produces exactly the explicit
`"<empty stderr>"` placeholder whenever a failing child's whole stderr
trims to empty. -/
theorem C7_nonzero_exit (func : Str) (V : Str → Bool) (m : Int) (st : FileState)
    (c0 : Str) (a1 : Int) (wl : Str) (now : Int) (cf : Str) (cmd : CmdBehavior)
    (ow d0 : Str) (a0 : Int) (w1 d1 : Str) (aa : Int)
    (h0 : readCache c0 0 = .ok (ow, d0, a0))
    (h1 : readCache st.content a1 = .ok (w1, d1, aa))
    (hreuse : reuseTest V m d1 aa = false)
    (hrun : runCondition V ow w1 d1 = true)
    (hst : cmd.status ≠ 0) :
    (∃ msg, (runInvocation func V m st c0 true a1 wl now cf cmd).result = .error msg ∧
      containsSeg (trimStart cmd.stderr) msg = true ∧
      containsSeg (("command exited with nonzero status").data) msg = true) ∧
    (runInvocation func V m st c0 true a1 wl now cf cmd).written = false ∧
    (runInvocation func V m st c0 true a1 wl now cf cmd).finalState = st ∧
    (∀ (f out serr : Str) (s : Int), s ≠ 0 → jsTrim serr = [] →
      processResult f s out serr = .error (f ++ ("() failed with status ").data ++
        (toString s).data ++ (": ").data ++ ("<empty stderr>").data)) := by
  have hps : perlScript V m c0 true st.content a1 cmd =
      { executed := true, err := some (.nonzeroExit cmd.status) } := by
    rw [perlScript_steps V m c0 st.content a1 cmd ow d0 a0 w1 d1 aa h0 h1]
    simp [hreuse, hrun, execPhase, hst]
  have hdie : (Err.nonzeroExit cmd.status).dieMessage cf =
      ("command exited with nonzero status").data ++
        (' ' :: ((toString cmd.status).data ++ ['\n'])) := by
    show ("command exited with nonzero status ").data ++
      (toString cmd.status).data ++ ['\n'] = _
    have hsp : ("command exited with nonzero status ").data =
        ("command exited with nonzero status").data ++ [' '] := by decide
    rw [hsp]
    simp
  obtain ⟨t, ht⟩ := jsTrim_embed_die cmd.stderr (' ' :: ((toString cmd.status).data ++ ['\n']))
  have hne : trimStart cmd.stderr ++ ("command exited with nonzero status").data ++ t ≠ [] := by
    simp only [List.append_assoc, ne_eq, List.append_eq_nil]
    intro hcon
    exact absurd hcon.2.1 (by decide)
  have hres0 : (runInvocation func V m st c0 true a1 wl now cf cmd).result =
      processResult func 255 []
        (cmd.stderr ++ (Err.nonzeroExit cmd.status).dieMessage cf) := by
    unfold runInvocation
    rw [hps]
    rfl
  have hres : (runInvocation func V m st c0 true a1 wl now cf cmd).result =
      .error (func ++ ("() failed with status ").data ++ (toString (255 : Int)).data ++
        (": ").data ++
        (trimStart cmd.stderr ++ ("command exited with nonzero status").data ++ t)) := by
    rw [hres0, hdie]
    unfold processResult
    rw [if_pos (by decide : (255 : Int) ≠ 0), ← List.append_assoc, ht, if_neg hne]
  refine ⟨⟨_, hres, ?_, ?_⟩, ?_, ?_, ?_⟩
  · rw [show func ++ ("() failed with status ").data ++ (toString (255 : Int)).data ++
        (": ").data ++
        (trimStart cmd.stderr ++ ("command exited with nonzero status").data ++ t) =
      (func ++ ("() failed with status ").data ++ (toString (255 : Int)).data ++
        (": ").data) ++ (trimStart cmd.stderr ++
          (("command exited with nonzero status").data ++ t)) from by
        simp [List.append_assoc]]
    exact containsSeg_append_mid _ _ _
  · rw [show func ++ ("() failed with status ").data ++ (toString (255 : Int)).data ++
        (": ").data ++
        (trimStart cmd.stderr ++ ("command exited with nonzero status").data ++ t) =
      ((func ++ ("() failed with status ").data ++ (toString (255 : Int)).data ++
        (": ").data) ++ trimStart cmd.stderr) ++
          (("command exited with nonzero status").data ++ t) from by
        simp [List.append_assoc]]
    exact containsSeg_append_mid _ _ _
  · simp [runInvocation, hps]
  · simp [runInvocation, hps]
  · intro f out serr s hs htrim
    simp [processResult, hs, htrim]

/-- Witness for C7: empty cache, command exits 1 with stderr "bad". -/
theorem C7_nonzero_exit_witness :
    (∃ msg, (runInvocation ['f'] (fun d => !d.isEmpty) 0 ⟨[], 384, 0⟩ [] true 0 ['w'] 9 ['c']
        ⟨1, [], ['b', 'a', 'd']⟩).result = .error msg ∧
      containsSeg (trimStart ['b', 'a', 'd']) msg = true ∧
      containsSeg (("command exited with nonzero status").data) msg = true) ∧
    (runInvocation ['f'] (fun d => !d.isEmpty) 0 ⟨[], 384, 0⟩ [] true 0 ['w'] 9 ['c']
      ⟨1, [], ['b', 'a', 'd']⟩).written = false ∧
    (runInvocation ['f'] (fun d => !d.isEmpty) 0 ⟨[], 384, 0⟩ [] true 0 ['w'] 9 ['c']
      ⟨1, [], ['b', 'a', 'd']⟩).finalState = ⟨[], 384, 0⟩ ∧
    (∀ (f out serr : Str) (s : Int), s ≠ 0 → jsTrim serr = [] →
      processResult f s out serr = .error (f ++ ("() failed with status ").data ++
        (toString s).data ++ (": ").data ++ ("<empty stderr>").data)) :=
  C7_nonzero_exit ['f'] (fun d => !d.isEmpty) 0 ⟨[], 384, 0⟩ [] 0 ['w'] 9 ['c']
    ⟨1, [], ['b', 'a', 'd']⟩ [] [] 0 [] [] 0
    (by decide) (by decide) (by decide) (by decide) (by decide)

/-- C5 counterexample: line 128 compiles the validator with the `/s`
modifier only (`perlMatchFlags`), not `/m`: for the pattern `^b$` and the
payload "a\nb\nc" the claimed multiline semantics accepts, while the
code's actual single-line-mode matcher rejects — matching is not
multiline. -/
theorem C5_counterexample :
    perlValidator (Rx.seq .startOfText (Rx.seq (.lit 'b') .endOfText))
      ['a', '\n', 'b', '\n', 'c'] = false ∧
    claimedValidator (Rx.seq .startOfText (Rx.seq (.lit 'b') .endOfText))
      ['a', '\n', 'b', '\n', 'c'] = true := by decide

/-- C5 (amended): the validator is compiled once per invocation, and a
payload is accepted exactly when the pattern is found anywhere in the text
in single-line (`/s`) mode: the wildcard matches every character including
newlines, but the anchors are not multiline — `^` matches only at the
start of the whole text, and `$` only at its very end or just before a
trailing final newline. -/
theorem C5_single_line_semantics :
    (∀ (text : Str) (i : Nat), i < text.length →
      rxNext perlMatchFlags text Rx.anyChar i = [i + 1]) ∧
    (∀ (text : Str) (i : Nat),
      rxNext perlMatchFlags text Rx.startOfText i ≠ [] ↔ i = 0) ∧
    (∀ (text : Str) (i : Nat),
      rxNext perlMatchFlags text Rx.endOfText i ≠ [] ↔
        (i = text.length ∨ (i + 1 = text.length ∧ text[i]? = some '\n'))) ∧
    (∀ (r : Rx) (text : Str),
      rxFound perlMatchFlags r text = true ↔
        ∃ i, i ≤ text.length ∧ rxNext perlMatchFlags text r i ≠ []) := by
  refine ⟨?_, ?_, ?_, ?_⟩
  · intro text i h
    simp [rxNext, List.getElem?_eq_getElem h, perlMatchFlags]
  · intro text i
    simp [rxNext, atStart, perlMatchFlags]
  · intro text i
    simp [rxNext, atEnd, perlMatchFlags]
    tauto
  · intro r text
    simp [rxFound, List.any_eq_true, List.mem_range, Nat.lt_succ_iff]

/-- Witness for C5 (amended) at concrete texts and patterns. -/
theorem C5_single_line_semantics_witness :
    rxNext perlMatchFlags ['\n'] Rx.anyChar 0 = [0 + 1] ∧
    (rxNext perlMatchFlags ['a'] Rx.startOfText 1 ≠ [] ↔ 1 = 0) ∧
    (rxNext perlMatchFlags ['a', '\n'] Rx.endOfText 1 ≠ [] ↔
      (1 = ['a', '\n'].length ∨ (1 + 1 = ['a', '\n'].length ∧ ['a', '\n'][1]? = some '\n'))) ∧
    (rxFound perlMatchFlags (Rx.lit 'b') ['a', 'b'] = true ↔
      ∃ i, i ≤ ['a', 'b'].length ∧ rxNext perlMatchFlags ['a', 'b'] (Rx.lit 'b') i ≠ []) :=
  ⟨C5_single_line_semantics.1 ['\n'] 0 (by decide),
   C5_single_line_semantics.2.1 ['a'] 1,
   C5_single_line_semantics.2.2.1 ['a', '\n'] 1,
   C5_single_line_semantics.2.2.2 (Rx.lit 'b') ['a', 'b']⟩

/-- The head of the burst: with the same content in both snapshots (the
writers are equal) and `cacheMaxAgeSec = 0`, the run test fires and a
successful, valid command execution writes the cache. -/
theorem perlScript_head_runs (V : Str → Bool) (c : Str) (a1 : Int) (cmd : CmdBehavior)
    (w0 d0 : Str) (a0 : Int)
    (h0 : readCache c 0 = .ok (w0, d0, a0))
    (hst : cmd.status = 0) (hv : V cmd.stdout = true) :
    perlScript V 0 c true c a1 cmd =
      { executed := true, written := true, output := cmd.stdout } := by
  obtain ⟨y, h1⟩ := readCache_age c 0 a1 w0 d0 a0 h0
  rw [perlScript_steps V 0 c c a1 cmd w0 d0 a0 w0 d0 y h0 h1]
  simp [reuseTest_zero, runCondition_self, execPhase, hst, hv]

/-- A queued caller behind the head: S1 now holds the fresh record with a
new writer, so the run test fails and the caller adopts the payload. -/
theorem perlScript_coalesces (V : Str → Bool) (c : Str) (a1 : Int) (cmd : CmdBehavior)
    (w0 d0 : Str) (a0 : Int) (wNew : Str)
    (h0 : readCache c 0 = .ok (w0, d0, a0))
    (hwne : wNew ≠ []) (hwnl : '\n' ∉ wNew) (hfresh : wNew ≠ w0)
    (hne : cmd.stdout ≠ []) (hv : V cmd.stdout = true) :
    perlScript V 0 c true (writeCacheContent wNew cmd.stdout) a1 cmd =
      { output := cmd.stdout } := by
  have h1 := readCache_writeCacheContent wNew cmd.stdout a1 hwne hwnl
  rw [perlScript_steps V 0 c (writeCacheContent wNew cmd.stdout) a1 cmd w0 d0 a0
    wNew cmd.stdout a1 h0 h1]
  have hrc : runCondition V w0 wNew cmd.stdout = false :=
    (runCondition_eq_false_iff V w0 wNew cmd.stdout).mpr ⟨hne, hv, hfresh⟩
  simp [reuseTest_zero, hrc]

/-- Every caller queued behind the head coalesces and leaves the file
state untouched. -/
theorem runBurstAux_coalesced (V : Str → Bool) (c : Str) (wl : Nat → Str)
    (ages : Nat → Int) (now : Nat → Int) (cmd : CmdBehavior)
    (w0 d0 : Str) (a0 : Int) (wNew : Str)
    (h0 : readCache c 0 = .ok (w0, d0, a0))
    (hwne : wNew ≠ []) (hwnl : '\n' ∉ wNew) (hfresh : wNew ≠ w0)
    (hne : cmd.stdout ≠ []) (hv : V cmd.stdout = true) :
    ∀ (n i : Nat) (stW : FileState),
      stW.content = writeCacheContent wNew cmd.stdout →
      runBurstAux V 0 c wl ages now cmd n i stW =
        (List.replicate n { output := cmd.stdout }, stW) := by
  intro n
  induction n with
  | zero =>
    intro i stW hc
    rfl
  | succ k ih =>
    intro i stW hc
    have hr : perlScript V 0 c true stW.content (ages i) cmd = { output := cmd.stdout } := by
      rw [hc]
      exact perlScript_coalesces V c (ages i) cmd w0 d0 a0 wNew h0 hwne hwnl hfresh hne hv
    simp [runBurstAux, hr, ih (i + 1) stW hc, List.replicate_succ]

theorem countP_replicate_false {α : Type} (p : α → Bool) (x : α) (hx : p x = false) :
    ∀ k : Nat, (List.replicate k x).countP p = 0 := by
  intro k
  induction k with
  | zero => rfl
  | succ j ih => simp [List.replicate_succ, List.countP_cons, hx, ih]

/-- C9: a burst of five or more concurrent callers of the same slow
command with `cacheMaxAgeSec = 0` (modelled as: every caller's pre-lock
snapshot sees the initial file content, then the callers pass through the
exclusively-locked critical section one at a time) results in exactly one
command execution and exactly one cache write — so the data file's
modification time changes exactly once, to the single writer's clock —
and every caller returns the identical freshly produced payload with no
error. -/
theorem C9_burst_single_execution (V : Str → Bool) (wl : Nat → Str) (ages : Nat → Int)
    (now : Nat → Int) (cmd : CmdBehavior) (st : FileState) (w0 d0 : Str) (a0 : Int) (n : Nat)
    (hn : 5 ≤ n)
    (h0 : readCache st.content 0 = .ok (w0, d0, a0))
    (hst : cmd.status = 0) (hv : V cmd.stdout = true) (hne : cmd.stdout ≠ [])
    (hwne : wl 0 ≠ []) (hwnl : '\n' ∉ wl 0) (hfresh : wl 0 ≠ w0) :
    (runBurst V 0 wl ages now cmd n st).1.countP (fun r => r.executed) = 1 ∧
    (runBurst V 0 wl ages now cmd n st).1.countP (fun r => r.written) = 1 ∧
    (∀ r ∈ (runBurst V 0 wl ages now cmd n st).1, r.err = none ∧ r.output = cmd.stdout) ∧
    (runBurst V 0 wl ages now cmd n st).2 = writeCacheEffect (wl 0) cmd.stdout (now 0) st := by
  obtain ⟨k, rfl⟩ : ∃ k, n = k + 1 := ⟨n - 1, by omega⟩
  have hhead := perlScript_head_runs V st.content (ages 0) cmd w0 d0 a0 h0 hst hv
  have hburst : runBurst V 0 wl ages now cmd (k + 1) st =
      ({ executed := true, written := true, output := cmd.stdout } ::
        List.replicate k { output := cmd.stdout },
       writeCacheEffect (wl 0) cmd.stdout (now 0) st) := by
    unfold runBurst
    simp only [runBurstAux, hhead, if_true]
    rw [runBurstAux_coalesced V st.content wl ages now cmd w0 d0 a0 (wl 0) h0 hwne hwnl
      hfresh hne hv k (0 + 1) (writeCacheEffect (wl 0) cmd.stdout (now 0) st)
      (by simp [writeCacheEffect])]
  rw [hburst]
  refine ⟨?_, ?_, ?_, rfl⟩
  · simp [List.countP_cons, countP_replicate_false (fun r => r.executed)
      ({ output := cmd.stdout } : PerlResult) rfl k]
  · simp [List.countP_cons, countP_replicate_false (fun r => r.written)
      ({ output := cmd.stdout } : PerlResult) rfl k]
  · intro r hr
    rcases List.mem_cons.mp hr with h | h
    · rw [h]
      exact ⟨rfl, rfl⟩
    · rw [(List.eq_of_mem_replicate h)]
      exact ⟨rfl, rfl⟩

/-- Witness for C9: five concurrent callers of a slow command over an
empty cache file execute once and all see "ok". -/
theorem C9_burst_single_execution_witness :
    (runBurst (fun d => !d.isEmpty) 0 (fun _ => ['w']) (fun _ => 0) (fun _ => 1)
      ⟨0, ['o', 'k'], []⟩ 5 ⟨[], 384, 0⟩).1.countP (fun r => r.executed) = 1 ∧
    (runBurst (fun d => !d.isEmpty) 0 (fun _ => ['w']) (fun _ => 0) (fun _ => 1)
      ⟨0, ['o', 'k'], []⟩ 5 ⟨[], 384, 0⟩).1.countP (fun r => r.written) = 1 ∧
    (∀ r ∈ (runBurst (fun d => !d.isEmpty) 0 (fun _ => ['w']) (fun _ => 0) (fun _ => 1)
      ⟨0, ['o', 'k'], []⟩ 5 ⟨[], 384, 0⟩).1,
        r.err = none ∧ r.output = (⟨0, ['o', 'k'], []⟩ : CmdBehavior).stdout) ∧
    (runBurst (fun d => !d.isEmpty) 0 (fun _ => ['w']) (fun _ => 0) (fun _ => 1)
      ⟨0, ['o', 'k'], []⟩ 5 ⟨[], 384, 0⟩).2 =
        writeCacheEffect ['w'] ['o', 'k'] 1 ⟨[], 384, 0⟩ :=
  C9_burst_single_execution (fun d => !d.isEmpty) (fun _ => ['w']) (fun _ => 0) (fun _ => 1)
    ⟨0, ['o', 'k'], []⟩ ⟨[], 384, 0⟩ [] [] 0 5 (by decide) (by decide) (by decide)
    (by decide) (by decide) (by decide) (by decide) (by decide)

end SpawnBurst
